import Mathlib

/-!
Verification of the misthan sweet-shop server core: a shallow embedding of
the Express route handlers in apps/server/src/routes/sweets.ts,
routes/auth.ts, the category router, and middleware/auth.ts, together with
proofs of the specified behavioural properties.

Modelling conventions:
- JavaScript numbers are modelled as rationals; the Zod integer check
  corresponds to denominator 1.
- The Prisma store is modelled as a list of records; findUnique on the id
  key is List.find? on the id field, update-where-id rewrites the record
  with that id, delete-where-id filters it out.
- Each route handler is a pure function from the request data and the
  store to a response paired with the resulting store.
-/

deriving instance DecidableEq for Except

namespace Misthan

/-- User role enum from the Prisma schema: USER or ADMIN. -/
inductive Role where
  | USER
  | ADMIN
deriving DecidableEq

/-- A persisted User record (id, email, name, hashed password, role). -/
structure User where
  id : String
  email : String
  name : String
  password : String
  role : Role
deriving DecidableEq

/-- A persisted Category record. -/
structure Category where
  id : String
  name : String
  description : Option String
deriving DecidableEq

/-- A persisted Sweet record: name, price, stock, category and owner ids. -/
structure Sweet where
  id : String
  name : String
  price : ℚ
  stock : ℚ
  categoryId : String
  userId : String
deriving DecidableEq

/-- Responses produced by the sweets and category routes. -/
inductive Resp where
  | unauthenticated
  | adminForbidden
  | ownerForbidden
  | validationError
  | searchInvalid (field : String)
  | invalidCategory
  | notFound
  | insufficientStock
  | conflict
  | okSweet (s : Sweet)
  | okCreatedSweet (s : Sweet)
  | okDeleted
  | okSweetList (l : List Sweet)
  | okCreatedCategory (c : Category)
deriving DecidableEq

/-- HTTP status code carried by each response. -/
def Resp.status : Resp → Nat
  | .unauthenticated => 401
  | .adminForbidden => 403
  | .ownerForbidden => 403
  | .validationError => 400
  | .searchInvalid _ => 400
  | .invalidCategory => 400
  | .notFound => 404
  | .insufficientStock => 400
  | .conflict => 409
  | .okSweet _ => 200
  | .okCreatedSweet _ => 201
  | .okDeleted => 200
  | .okSweetList _ => 200
  | .okCreatedCategory _ => 201

/-- prisma.sweet.findUnique on the id key. -/
def findSweet (db : List Sweet) (id : String) : Option Sweet :=
  db.find? (fun s => s.id == id)

/-- prisma.sweet.update on the id key with data consisting of the stock
field only, as issued by the purchase and restock handlers. -/
def updateStock (db : List Sweet) (id : String) (newStock : ℚ) : List Sweet :=
  db.map (fun s => if s.id = id then { s with stock := newStock } else s)

/-- QuantitySchema: z.coerce.number().int().positive() — the quantity must
be an integer (denominator 1) and strictly positive. -/
def validQuantity (q : ℚ) : Bool :=
  q.den == 1 && decide (0 < q)

/-- POST /api/sweets/:id/purchase handler body (after requireAuth): parse
the quantity, look the sweet up, reject when stock is insufficient, else
write back stock - quantity. -/
def purchaseRoute (db : List Sweet) (id : String) (q : ℚ) : Resp × List Sweet :=
  if validQuantity q then
    match findSweet db id with
    | none => (.notFound, db)
    | some sweet =>
      if sweet.stock < q then (.insufficientStock, db)
      else (.okSweet { sweet with stock := sweet.stock - q },
            updateStock db id (sweet.stock - q))
  else (.validationError, db)

/-- POST /api/sweets/:id/restock, with the requireAdmin middleware folded
in front of the handler: admin gate, quantity validation, lookup, owner
check, then write back stock + quantity. -/
def restockRoute (actor : User) (db : List Sweet) (id : String) (q : ℚ) :
    Resp × List Sweet :=
  if actor.role = Role.ADMIN then
    if validQuantity q then
      match findSweet db id with
      | none => (.notFound, db)
      | some sweet =>
        if sweet.userId = actor.id then
          (.okSweet { sweet with stock := sweet.stock + q },
           updateStock db id (sweet.stock + q))
        else (.ownerForbidden, db)
    else (.validationError, db)
  else (.adminForbidden, db)

/-- Parsed body of PUT /api/sweets/:id — every field optional. -/
structure UpdateBody where
  name : Option String
  price : Option ℚ
  stock : Option ℚ
  categoryId : Option String
deriving DecidableEq

/-- UpdateSweetSchema: each present field must be valid (non-empty name,
non-negative price, non-negative integer stock) and at least one field
must be present. -/
def validUpdateBody (b : UpdateBody) : Bool :=
  (match b.name with | none => true | some n => n != "") &&
  (match b.price with | none => true | some p => decide (0 ≤ p)) &&
  (match b.stock with | none => true | some v => v.den == 1 && decide (0 ≤ v)) &&
  (b.name.isSome || b.price.isSome || b.stock.isSome || b.categoryId.isSome)

/-- prisma.sweet.update with the parsed partial data: present fields
overwrite, absent fields keep the stored value; owner is untouched. -/
def applyUpdate (b : UpdateBody) (s : Sweet) : Sweet :=
  { s with
    name := b.name.getD s.name
    price := b.price.getD s.price
    stock := b.stock.getD s.stock
    categoryId := b.categoryId.getD s.categoryId }

/-- PUT /api/sweets/:id with requireAdmin folded in: admin gate, payload
validation, lookup, owner check, then the partial update. -/
def updateRoute (actor : User) (db : List Sweet) (id : String) (b : UpdateBody) :
    Resp × List Sweet :=
  if actor.role = Role.ADMIN then
    if validUpdateBody b then
      match findSweet db id with
      | none => (.notFound, db)
      | some sweet =>
        if sweet.userId = actor.id then
          (.okSweet (applyUpdate b sweet),
           db.map (fun s => if s.id = id then applyUpdate b s else s))
        else (.ownerForbidden, db)
    else (.validationError, db)
  else (.adminForbidden, db)

/-- DELETE /api/sweets/:id with requireAdmin folded in: admin gate,
lookup, owner check, then delete-where-id. -/
def deleteRoute (actor : User) (db : List Sweet) (id : String) :
    Resp × List Sweet :=
  if actor.role = Role.ADMIN then
    match findSweet db id with
    | none => (.notFound, db)
    | some sweet =>
      if sweet.userId = actor.id then
        (.okDeleted, db.filter (fun s => s.id != id))
      else (.ownerForbidden, db)
  else (.adminForbidden, db)

/-- Lower-casing used by the category duplicate check
(name.toLowerCase()). -/
def lowerStr (s : String) : String :=
  String.mk (s.data.map Char.toLower)

/-- POST /api/category with requireAdmin folded in: admin gate, name
validation, case-insensitive duplicate scan over all categories, then
create. The store-generated id is passed in as newId. -/
def createCategoryRoute (actor : User) (cats : List Category) (newId : String)
    (name : String) (description : Option String) : Resp × List Category :=
  if actor.role = Role.ADMIN then
    if name = "" then (.validationError, cats)
    else
      match cats.find? (fun c => lowerStr c.name == lowerStr name) with
      | some _ => (.conflict, cats)
      | none =>
        (.okCreatedCategory ⟨newId, name, description⟩,
         cats ++ [⟨newId, name, description⟩])
  else (.adminForbidden, cats)

/-- Splitting accumulator for jsSplit, structurally recursive so that
concrete runs reduce in the kernel. -/
def jsSplitAux (sep : Char) : List Char → List Char → List String
  | [], acc => [String.mk acc.reverse]
  | c :: rest, acc =>
    if c == sep then String.mk acc.reverse :: jsSplitAux sep rest []
    else jsSplitAux sep rest (c :: acc)

/-- The JS String.split method for a single-character separator, the only
form the server uses (split on a semicolon, equals sign, at sign or
dot). -/
def jsSplit (sep : Char) (s : String) : List String :=
  jsSplitAux sep s.data []

/-- The JS String.trim method: strip leading and trailing whitespace. -/
def jsTrim (s : String) : String :=
  String.mk
    (((s.data.dropWhile Char.isWhitespace).reverse.dropWhile
        Char.isWhitespace).reverse)

/-- Boolean list prefix test used by jsStartsWith. -/
def isPrefixL : List Char → List Char → Bool
  | [], _ => true
  | _ :: _, [] => false
  | a :: as, b :: bs => a == b && isPrefixL as bs

/-- The JS String.startsWith method. -/
def jsStartsWith (s p : String) : Bool :=
  isPrefixL p.data s.data

/-- Cookie lookup in requireAuth: split the raw Cookie header on
semicolons, trim each entry, and find the first one starting with the
literal prefix for the auth-token cookie. -/
def authTokenPair (cookieHeader : String) : Option String :=
  ((jsSplit ';' cookieHeader).map jsTrim).find?
    (fun c => jsStartsWith c "auth-token=")

/-- Token extraction in requireAuth: tokenPair.split on the equals sign,
index 1 (the empty string stands for the absent JS undefined, which the
verifier then rejects). -/
def tokenOf (pair : String) : String :=
  (jsSplit '=' pair).getD 1 ""

/-- requireAuth after cookie extraction: verify the token (jwt.verify with
the server secret, abstracted as a function from tokens to an optional
subject id), then resolve the id against the persisted users; any failure
is reported as none, which the route maps to a 401 response. -/
def requireAuthUser (verify : String → Option String) (users : List User)
    (cookieHeader : String) : Option User :=
  match authTokenPair cookieHeader with
  | none => none
  | some pair =>
    match verify (tokenOf pair) with
    | none => none
    | some uid => users.find? (fun u => u.id == uid)

/-- An endpoint guarded by requireAuth: when authentication fails the
response is 401 and the state is untouched; otherwise the handler runs
with the resolved user attached. -/
def runAuthed {σ : Type} (verify : String → Option String) (users : List User)
    (cookieHeader : String) (handler : User → σ → Resp × σ) (st : σ) : Resp × σ :=
  match requireAuthUser verify users cookieHeader with
  | none => (.unauthenticated, st)
  | some u => handler u st

/-- Digit-string value used by the decimal part of JS number coercion. -/
def digitsVal (l : List Char) : ℕ :=
  l.foldl (fun a c => a * 10 + (c.toNat - 48)) 0

/-- All characters are decimal digits. -/
def allDigits (l : List Char) : Bool :=
  l.all Char.isDigit

/-- Unsigned part of JS number coercion: digits with an optional decimal
point. -/
def jsNumAbs (body : List Char) : Option ℚ :=
  match jsSplit '.' (String.mk body) with
  | [ip] =>
    if ip != "" && allDigits ip.data then some (digitsVal ip.data : ℚ)
    else none
  | [ip, fp] =>
    if (ip != "" || fp != "") && allDigits ip.data && allDigits fp.data then
      some ((digitsVal ip.data : ℚ) + (digitsVal fp.data : ℚ) / (10 : ℚ) ^ fp.length)
    else none
  | _ => none

/-- JavaScript Number() coercion as applied by z.coerce.number() to query
string values, modelled for decimal literals: the trimmed empty string
coerces to 0; an optional sign followed by digits with an optional
decimal point yields that value; anything else is NaN, reported as none
(z.number() then rejects NaN). Exponent and hex forms are outside the
behaviour the routes are specified on and also map to none. -/
def jsNumber (s : String) : Option ℚ :=
  let t := jsTrim s
  if t = "" then some 0
  else
    match t.data with
    | '-' :: rest => (jsNumAbs rest).map (fun q => -q)
    | '+' :: rest => jsNumAbs rest
    | l => jsNumAbs l

/-- Raw query strings of GET /api/sweets/search, each parameter optional. -/
structure SearchRaw where
  name : Option String
  categoryId : Option String
  priceMin : Option String
  priceMax : Option String
deriving DecidableEq

/-- Parsed search query after SearchQuery.safeParse succeeds. -/
structure SearchParams where
  name : Option String
  categoryId : Option String
  priceMin : Option ℚ
  priceMax : Option ℚ
deriving DecidableEq

/-- The trim-then-drop-empty transform applied by SearchQuery to the name
and categoryId parameters. -/
def normStr (v : Option String) : Option String :=
  match v with
  | none => none
  | some s => if jsTrim s = "" then none else some (jsTrim s)

/-- Parse one price bound: absent stays absent; present values are
coerced by Number() and must be non-negative, else the parse fails on the
given field. -/
def parsePrice (field : String) (v : Option String) : Except String (Option ℚ) :=
  match v with
  | none => .ok none
  | some s =>
    match jsNumber s with
    | none => .error field
    | some q => if q < 0 then .error field else .ok (some q)

/-- SearchQuery.safeParse: parse both price bounds, then apply the
refinement priceMin ≤ priceMax (reported on the priceMin path) when both
bounds are present. -/
def parseSearchQuery (r : SearchRaw) : Except String SearchParams :=
  match parsePrice "priceMin" r.priceMin with
  | .error f => .error f
  | .ok pmin =>
    match parsePrice "priceMax" r.priceMax with
    | .error f => .error f
    | .ok pmax =>
      match pmin, pmax with
      | some a, some b =>
        if b < a then .error "priceMin"
        else .ok ⟨normStr r.name, normStr r.categoryId, some a, some b⟩
      | _, _ => .ok ⟨normStr r.name, normStr r.categoryId, pmin, pmax⟩

/-- Boolean substring test over character lists. -/
def isSubL (needle : List Char) : List Char → Bool
  | [] => needle.isEmpty
  | c :: rest => isPrefixL needle (c :: rest) || isSubL needle rest

/-- Case-insensitive substring match, the Prisma contains filter with
insensitive mode used for the name parameter. -/
def containsCI (hay needle : String) : Bool :=
  isSubL (lowerStr needle).data (lowerStr hay).data

/-- The where clause the search handler builds, as a predicate: the
conjunction of the filters supplied in the parsed query. -/
def matchesSearch (p : SearchParams) (s : Sweet) : Bool :=
  (match p.name with | none => true | some n => containsCI s.name n) &&
  (match p.categoryId with | none => true | some c => s.categoryId == c) &&
  (match p.priceMin with | none => true | some a => decide (a ≤ s.price)) &&
  (match p.priceMax with | none => true | some b => decide (s.price ≤ b))

/-- GET /api/sweets/search handler body (after requireAuth): validate the
query, then return the sweets matching the conjunction of the supplied
filters. The store is read-only here. -/
def searchRoute (db : List Sweet) (r : SearchRaw) : Resp :=
  match parseSearchQuery r with
  | .error f => .searchInvalid f
  | .ok p => .okSweetList (db.filter (fun s => matchesSearch p s))

/-- Parsed body of POST /api/auth/register. -/
structure RegisterBody where
  email : String
  name : String
  password : String
  role : Option Role
deriving DecidableEq

/-- Zod email format check, modelled as: a non-empty local part, one at
sign, and a domain of at least two non-empty dot-separated labels. -/
def emailOk (s : String) : Bool :=
  match jsSplit '@' s with
  | [localPart, domain] =>
    localPart != "" && (jsSplit '.' domain).all (fun l => l != "") &&
      decide (2 ≤ (jsSplit '.' domain).length)
  | _ => false

/-- RegisterSchema: valid email, non-empty name, password of at least 8
characters; the role field is optional and defaults to USER. -/
def validRegister (b : RegisterBody) : Bool :=
  emailOk b.email && b.name != "" && decide (8 ≤ b.password.length)

/-- Outcome of POST /api/auth/register. The created response carries the
public user fields (the password field is destructured away before the
JSON is sent) and whether the auth-token cookie was set. -/
inductive RegisterOutcome where
  | invalidInput
  | conflict
  | created (id email name : String) (role : Role) (cookieSet : Bool)
deriving DecidableEq

/-- HTTP status of a register outcome. -/
def RegisterOutcome.status : RegisterOutcome → Nat
  | .invalidInput => 400
  | .conflict => 409
  | .created _ _ _ _ _ => 201

/-- POST /api/auth/register: no authentication gate; validate, reject a
duplicate email with 409, else persist the user with the requested role
(defaulting to USER), sign a JWT and set the auth-token cookie. The
bcrypt hash and the store-generated id are passed in as functions or
values. -/
def registerRoute (hash : String → String) (newId : String) (users : List User)
    (b : RegisterBody) : RegisterOutcome × List User :=
  if validRegister b then
    match users.find? (fun u => u.email == b.email) with
    | some _ => (.conflict, users)
    | none =>
      (.created newId b.email b.name (b.role.getD Role.USER) true,
       users ++ [⟨newId, b.email, b.name, hash b.password, b.role.getD Role.USER⟩])
  else (.invalidInput, users)

/-- One element of the GET /api/sweets response: the sweet together with
the included category and user relations, embedded whole. -/
structure SweetWithRelations where
  sweet : Sweet
  category : Option Category
  user : Option User
deriving DecidableEq

/-- GET /api/sweets handler body (after requireAuth):
prisma.sweet.findMany with include category and user — every sweet is
returned with the full related records and no field stripping. -/
def listSweetsRoute (users : List User) (cats : List Category)
    (sweets : List Sweet) : List SweetWithRelations :=
  sweets.map (fun s =>
    ⟨s, cats.find? (fun c => c.id == s.categoryId),
     users.find? (fun u => u.id == s.userId)⟩)

/-- Operations of the stock state machine: purchase by any authenticated
user, restock by a given actor, both going through the full route
handlers. -/
inductive Op where
  | purchase (id : String) (q : ℚ)
  | restock (actor : User) (id : String) (q : ℚ)

/-- Apply one operation to the store through its route handler, keeping
the resulting store. -/
def applyOp (db : List Sweet) : Op → List Sweet
  | .purchase id q => (purchaseRoute db id q).2
  | .restock actor id q => (restockRoute actor db id q).2

/-- Run a sequence of purchase and restock operations. -/
def runOps (db : List Sweet) (ops : List Op) : List Sweet :=
  ops.foldl applyOp db

/-- Events of two interleaved purchase requests against one record: each
request performs its findUnique read and then its check-plus-update write
computed from the value it read, exactly as the handler does. -/
inductive PEvent where
  | read1
  | write1
  | read2
  | write2
deriving DecidableEq

/-- State of the two-purchase interleaving: the persisted stock, the
value each request read (none before its read), and each request outcome
(none while pending, true for 200, false for insufficient stock). -/
structure RaceState where
  stock : ℚ
  r1 : Option ℚ
  r2 : Option ℚ
  ok1 : Option Bool
  ok2 : Option Bool
deriving DecidableEq

/-- One step of the interleaving. A write checks the stock value its own
request read earlier — the application-memory check of the handler — and
stores readValue - quantity; a write before the matching read does
nothing (the request has not reached its update yet). -/
def raceStep (q1 q2 : ℚ) (s : RaceState) : PEvent → RaceState
  | .read1 => { s with r1 := some s.stock }
  | .write1 =>
    match s.r1 with
    | none => s
    | some v =>
      if v < q1 then { s with ok1 := some false }
      else { s with stock := v - q1, ok1 := some true }
  | .read2 => { s with r2 := some s.stock }
  | .write2 =>
    match s.r2 with
    | none => s
    | some v =>
      if v < q2 then { s with ok2 := some false }
      else { s with stock := v - q2, ok2 := some true }

/-- Run a schedule of interleaved events from an initial stock. -/
def runRace (q1 q2 init : ℚ) (sched : List PEvent) : RaceState :=
  sched.foldl (raceStep q1 q2) ⟨init, none, none, none, none⟩

theorem validQuantity_pos {q : ℚ} (h : validQuantity q = true) : 0 < q := by
  simp only [validQuantity, Bool.and_eq_true, decide_eq_true_eq] at h
  exact h.2

theorem updateStock_nonneg (db : List Sweet) (id : String) {v : ℚ}
    (h : ∀ s ∈ db, 0 ≤ s.stock) (hv : 0 ≤ v) :
    ∀ s ∈ updateStock db id v, 0 ≤ s.stock := by
  intro s hs
  simp only [updateStock, List.mem_map] at hs
  obtain ⟨t, ht, rfl⟩ := hs
  by_cases hid : t.id = id
  · simpa [hid] using hv
  · simpa [hid] using h t ht

theorem purchaseRoute_stock_nonneg (db : List Sweet) (id : String) (q : ℚ)
    (h : ∀ s ∈ db, 0 ≤ s.stock) :
    ∀ s ∈ (purchaseRoute db id q).2, 0 ≤ s.stock := by
  cases hv : validQuantity q with
  | false => simpa [purchaseRoute, hv] using h
  | true =>
    cases hf : findSweet db id with
    | none => simpa [purchaseRoute, hv, hf] using h
    | some sweet =>
      by_cases hlt : sweet.stock < q
      · simpa [purchaseRoute, hv, hf, hlt] using h
      · have hq : 0 ≤ sweet.stock - q := sub_nonneg.2 (not_lt.1 hlt)
        intro s hs
        refine updateStock_nonneg db id h hq s ?_
        simpa [purchaseRoute, hv, hf, hlt] using hs

theorem restockRoute_stock_nonneg (actor : User) (db : List Sweet) (id : String)
    (q : ℚ) (h : ∀ s ∈ db, 0 ≤ s.stock) :
    ∀ s ∈ (restockRoute actor db id q).2, 0 ≤ s.stock := by
  by_cases ha : actor.role = Role.ADMIN
  · cases hv : validQuantity q with
    | false => simpa [restockRoute, ha, hv] using h
    | true =>
      cases hf : findSweet db id with
      | none => simpa [restockRoute, ha, hv, hf] using h
      | some sweet =>
        by_cases ho : sweet.userId = actor.id
        · have hmem : sweet ∈ db := List.mem_of_find?_eq_some hf
          have hq : 0 ≤ sweet.stock + q :=
            add_nonneg (h sweet hmem) (validQuantity_pos hv).le
          intro s hs
          refine updateStock_nonneg db id h hq s ?_
          simpa [restockRoute, ha, hv, hf, ho] using hs
        · simpa [restockRoute, ha, hv, hf, ho] using h
  · simpa [restockRoute, ha] using h

theorem applyOp_stock_nonneg (db : List Sweet) (op : Op)
    (h : ∀ s ∈ db, 0 ≤ s.stock) : ∀ s ∈ applyOp db op, 0 ≤ s.stock := by
  cases op with
  | purchase id q => exact purchaseRoute_stock_nonneg db id q h
  | restock actor id q => exact restockRoute_stock_nonneg actor db id q h

/-- C1: starting from a store whose sweets all have non-negative stock
(as guaranteed for sweets created through CreateSweetSchema, whose stock
must be a non-negative integer), any sequence of sequentially executed
purchase and restock route invocations leaves every stock
non-negative. -/
theorem stock_nonneg_after_ops (db : List Sweet) (ops : List Op)
    (h : ∀ s ∈ db, 0 ≤ s.stock) : ∀ s ∈ runOps db ops, 0 ≤ s.stock := by
  induction ops generalizing db with
  | nil => simpa [runOps] using h
  | cons op rest ih =>
    simp only [runOps, List.foldl_cons]
    simpa [runOps] using ih (applyOp db op) (applyOp_stock_nonneg db op h)

/-- Witness for C1: a concrete store and operation sequence. -/
theorem stock_nonneg_after_ops_witness :
    (∀ s ∈ ([⟨"s1", "Gum", 5, 10, "c1", "u1"⟩] : List Sweet), 0 ≤ s.stock) ∧
    (∀ s ∈ runOps [⟨"s1", "Gum", 5, 10, "c1", "u1"⟩]
        [Op.purchase "s1" 3,
         Op.restock ⟨"u1", "a@b.co", "A", "h", Role.ADMIN⟩ "s1" 5],
      0 ≤ s.stock) :=
  ⟨by decide, stock_nonneg_after_ops _ _ (by decide)⟩

/-- C2: for a purchase on an existing sweet, an invalid quantity fails
with 400 and leaves the store unchanged; a valid quantity exceeding the
stock fails with the insufficient-stock 400 and leaves the store
unchanged; a valid quantity within the stock returns 200 with the sweet
whose stock is decremented by exactly the quantity and whose other
fields are untouched, the store records with other ids being kept. -/
theorem purchase_contract (db : List Sweet) (id : String) (q : ℚ) (sweet : Sweet)
    (hfind : findSweet db id = some sweet) :
    (validQuantity q = false →
      purchaseRoute db id q = (.validationError, db) ∧
      Resp.status .validationError = 400) ∧
    (validQuantity q = true → sweet.stock < q →
      purchaseRoute db id q = (.insufficientStock, db) ∧
      Resp.status .insufficientStock = 400) ∧
    (validQuantity q = true → q ≤ sweet.stock →
      purchaseRoute db id q =
        (.okSweet { sweet with stock := sweet.stock - q },
         updateStock db id (sweet.stock - q)) ∧
      { sweet with stock := sweet.stock - q } ∈ (purchaseRoute db id q).2 ∧
      (∀ t ∈ db, t.id ≠ id → t ∈ (purchaseRoute db id q).2) ∧
      Resp.status (.okSweet { sweet with stock := sweet.stock - q }) = 200) := by
  refine ⟨fun hv => ⟨by simp [purchaseRoute, hv], rfl⟩,
    fun hv hlt => ⟨by simp [purchaseRoute, hv, hfind, hlt], rfl⟩,
    fun hv hle => ?_⟩
  have hnlt : ¬ sweet.stock < q := not_lt.2 hle
  have heq : purchaseRoute db id q =
      (.okSweet { sweet with stock := sweet.stock - q },
       updateStock db id (sweet.stock - q)) := by
    simp [purchaseRoute, hv, hfind, hnlt]
  have hid : sweet.id = id := by
    have hp := List.find?_some hfind
    simpa using hp
  refine ⟨heq, ?_, ?_, rfl⟩
  · rw [heq]
    have hmem : sweet ∈ db := List.mem_of_find?_eq_some hfind
    simp only [updateStock, List.mem_map]
    exact ⟨sweet, hmem, by simp [hid]⟩
  · intro t ht hne
    rw [heq]
    simp only [updateStock, List.mem_map]
    exact ⟨t, ht, by simp [hne]⟩

/-- Witness for C2: a concrete purchase of 3 out of a stock of 10. -/
theorem purchase_contract_witness :
    purchaseRoute [⟨"s1", "Gum", 5, 10, "c1", "u1"⟩] "s1" 3 =
      (.okSweet ⟨"s1", "Gum", 5, 7, "c1", "u1"⟩,
       [⟨"s1", "Gum", 5, 7, "c1", "u1"⟩]) := by
  have h := ((purchase_contract [⟨"s1", "Gum", 5, 10, "c1", "u1"⟩] "s1" 3
      ⟨"s1", "Gum", 5, 10, "c1", "u1"⟩ (by decide)).2.2 (by decide) (by decide)).1
  rw [h]
  norm_num [updateStock]

/-- C8: restock by the owning admin with a valid positive integer
quantity on an existing sweet returns 200 with the stock incremented by
exactly that quantity; an unknown id fails with 404 and the store is
unchanged. -/
theorem restock_contract (actor : User) (db : List Sweet) (id : String) (q : ℚ)
    (hadmin : actor.role = Role.ADMIN) (hq : validQuantity q = true) :
    (∀ sweet, findSweet db id = some sweet → sweet.userId = actor.id →
      restockRoute actor db id q =
        (.okSweet { sweet with stock := sweet.stock + q },
         updateStock db id (sweet.stock + q)) ∧
      { sweet with stock := sweet.stock + q } ∈ (restockRoute actor db id q).2 ∧
      Resp.status (.okSweet { sweet with stock := sweet.stock + q }) = 200) ∧
    (findSweet db id = none →
      restockRoute actor db id q = (.notFound, db) ∧
      Resp.status .notFound = 404) := by
  refine ⟨fun sweet hfind hown => ?_, fun hnone => ⟨by simp [restockRoute, hadmin, hq, hnone], rfl⟩⟩
  have heq : restockRoute actor db id q =
      (.okSweet { sweet with stock := sweet.stock + q },
       updateStock db id (sweet.stock + q)) := by
    simp [restockRoute, hadmin, hq, hfind, hown]
  have hid : sweet.id = id := by
    have hp := List.find?_some hfind
    simpa using hp
  refine ⟨heq, ?_, rfl⟩
  rw [heq]
  have hmem : sweet ∈ db := List.mem_of_find?_eq_some hfind
  simp only [updateStock, List.mem_map]
  exact ⟨sweet, hmem, by simp [hid]⟩

/-- Witness for C8: the owner admin restocks 5 onto a stock of 10. -/
theorem restock_contract_witness :
    restockRoute ⟨"u1", "a@b.co", "A", "h", Role.ADMIN⟩
        [⟨"s1", "Gum", 5, 10, "c1", "u1"⟩] "s1" 5 =
      (.okSweet ⟨"s1", "Gum", 5, 15, "c1", "u1"⟩,
       [⟨"s1", "Gum", 5, 15, "c1", "u1"⟩]) := by
  have h := ((restock_contract ⟨"u1", "a@b.co", "A", "h", Role.ADMIN⟩
      [⟨"s1", "Gum", 5, 10, "c1", "u1"⟩] "s1" 5 rfl (by decide)).1
      ⟨"s1", "Gum", 5, 10, "c1", "u1"⟩ (by decide) rfl).1
  rw [h]
  norm_num [updateStock]

/-- Counterexample to C3: a non-owner admin sending an invalid update
payload (no field present) to an existing sweet receives the 400
validation response, not the claimed 403 — the payload is validated
before the ownership check runs. -/
theorem nonowner_update_invalid_payload_cex :
    updateRoute ⟨"u2", "b@x.co", "B", "h", Role.ADMIN⟩
        [⟨"s1", "Gum", 5, 10, "c1", "u1"⟩] "s1" ⟨none, none, none, none⟩ =
      (.validationError, [⟨"s1", "Gum", 5, 10, "c1", "u1"⟩]) ∧
    (updateRoute ⟨"u2", "b@x.co", "B", "h", Role.ADMIN⟩
        [⟨"s1", "Gum", 5, 10, "c1", "u1"⟩] "s1"
        ⟨none, none, none, none⟩).1.status = 400 ∧
    (updateRoute ⟨"u2", "b@x.co", "B", "h", Role.ADMIN⟩
        [⟨"s1", "Gum", 5, 10, "c1", "u1"⟩] "s1"
        ⟨none, none, none, none⟩).1.status ≠ 403 := by
  decide

/-- C3 (amended): for update, delete or restock on an existing sweet by
an authenticated admin who is not the owner, a valid payload fails with
the ownership 403; an invalid update or restock payload instead fails
with the 400 validation response before the ownership check; in every
case the store is unchanged (delete carries no payload and always yields
the 403). -/
theorem nonowner_admin_mutation_contract (actor : User) (db : List Sweet)
    (id : String) (sweet : Sweet) (b : UpdateBody) (q : ℚ)
    (hadmin : actor.role = Role.ADMIN) (hfind : findSweet db id = some sweet)
    (hown : sweet.userId ≠ actor.id) :
    (validUpdateBody b = true → updateRoute actor db id b = (.ownerForbidden, db)) ∧
    (validUpdateBody b = false → updateRoute actor db id b = (.validationError, db)) ∧
    deleteRoute actor db id = (.ownerForbidden, db) ∧
    (validQuantity q = true → restockRoute actor db id q = (.ownerForbidden, db)) ∧
    (validQuantity q = false → restockRoute actor db id q = (.validationError, db)) ∧
    Resp.status .ownerForbidden = 403 ∧ Resp.status .validationError = 400 := by
  refine ⟨fun hb => by simp [updateRoute, hadmin, hb, hfind, hown],
    fun hb => by simp [updateRoute, hadmin, hb],
    by simp [deleteRoute, hadmin, hfind, hown],
    fun hq => by simp [restockRoute, hadmin, hq, hfind, hown],
    fun hq => by simp [restockRoute, hadmin, hq],
    rfl, rfl⟩

/-- Witness for the amended C3: a concrete non-owner admin with a valid
update payload, a delete, and a valid restock quantity, each receiving
the ownership 403 with the store unchanged. -/
theorem nonowner_admin_mutation_contract_witness :
    updateRoute ⟨"u2", "b@x.co", "B", "h", Role.ADMIN⟩
        [⟨"s1", "Gum", 5, 10, "c1", "u1"⟩] "s1" ⟨some "New", none, none, none⟩ =
      (.ownerForbidden, [⟨"s1", "Gum", 5, 10, "c1", "u1"⟩]) ∧
    deleteRoute ⟨"u2", "b@x.co", "B", "h", Role.ADMIN⟩
        [⟨"s1", "Gum", 5, 10, "c1", "u1"⟩] "s1" =
      (.ownerForbidden, [⟨"s1", "Gum", 5, 10, "c1", "u1"⟩]) ∧
    restockRoute ⟨"u2", "b@x.co", "B", "h", Role.ADMIN⟩
        [⟨"s1", "Gum", 5, 10, "c1", "u1"⟩] "s1" 5 =
      (.ownerForbidden, [⟨"s1", "Gum", 5, 10, "c1", "u1"⟩]) := by
  have h := nonowner_admin_mutation_contract ⟨"u2", "b@x.co", "B", "h", Role.ADMIN⟩
    [⟨"s1", "Gum", 5, 10, "c1", "u1"⟩] "s1" ⟨"s1", "Gum", 5, 10, "c1", "u1"⟩
    ⟨some "New", none, none, none⟩ 5 rfl (by decide) (by decide)
  exact ⟨h.1 (by decide), h.2.2.1, h.2.2.2.1 (by decide)⟩

/-- C4: when the Cookie header holds no auth-token entry, or the token
fails verification, or the encoded user id resolves to no persisted
user, an endpoint guarded by requireAuth answers 401 with the state
untouched, for every downstream handler — so neither the role check nor
the operation handler is reached. -/
theorem auth_gate_unauthenticated (verify : String → Option String)
    (users : List User) (cookie : String)
    (h : authTokenPair cookie = none ∨
      (∃ pair, authTokenPair cookie = some pair ∧ verify (tokenOf pair) = none) ∨
      (∃ pair uid, authTokenPair cookie = some pair ∧
        verify (tokenOf pair) = some uid ∧
        users.find? (fun u => u.id == uid) = none)) :
    ∀ {σ : Type} (handler : User → σ → Resp × σ) (st : σ),
      runAuthed verify users cookie handler st = (.unauthenticated, st) ∧
      Resp.status .unauthenticated = 401 := by
  have hnone : requireAuthUser verify users cookie = none := by
    rcases h with h1 | ⟨pair, hp, hv⟩ | ⟨pair, uid, hp, hv, hu⟩
    · simp [requireAuthUser, h1]
    · simp [requireAuthUser, hp, hv]
    · simp [requireAuthUser, hp, hv, hu]
  intro σ handler st
  exact ⟨by simp [runAuthed, hnone], rfl⟩

/-- Witness for C4: a Cookie header with no auth-token entry, a handler
that would answer 200, and an unchanged state. -/
theorem auth_gate_unauthenticated_witness :
    runAuthed (fun _ => none) [] "sessionid=abc"
      (fun _ st => (.okDeleted, st)) (0 : Nat) = (.unauthenticated, 0) :=
  (auth_gate_unauthenticated (fun _ => none) [] "sessionid=abc"
    (Or.inl (by decide)) (fun _ st => (.okDeleted, st)) 0).1

/-- Counterexample to C5: with stock 5 and quantities 3 and 4, the
schedule where both requests read before either writes lets both
purchases succeed and leaves stock 1, an outcome produced by neither
serial order (each serial order rejects the second purchase) — so the
check-then-decrement of the purchase handler is not serialized per
record: the stock check happens in application memory between the
findUnique read and the update write. -/
theorem purchase_race_cex :
    runRace 3 4 5 [.read1, .read2, .write1, .write2] =
      ⟨1, some 5, some 5, some true, some true⟩ ∧
    runRace 3 4 5 [.read1, .write1, .read2, .write2] =
      ⟨2, some 5, some 2, some true, some false⟩ ∧
    runRace 3 4 5 [.read2, .write2, .read1, .write1] =
      ⟨1, some 1, some 5, some false, some true⟩ ∧
    ((some true, some true) : Option Bool × Option Bool) ≠ (some true, some false) ∧
    ((some true, some true) : Option Bool × Option Bool) ≠ (some false, some true) := by
  refine ⟨by norm_num [runRace, raceStep], by norm_num [runRace, raceStep],
    by norm_num [runRace, raceStep], by decide, by decide⟩

theorem raceStep_stock_nonneg (q1 q2 : ℚ) (s : RaceState) (e : PEvent)
    (h : 0 ≤ s.stock) : 0 ≤ (raceStep q1 q2 s e).stock := by
  cases e with
  | read1 => simpa [raceStep] using h
  | read2 => simpa [raceStep] using h
  | write1 =>
    cases hr : s.r1 with
    | none => simpa [raceStep, hr] using h
    | some v =>
      by_cases hv : v < q1
      · simpa [raceStep, hr, hv] using h
      · simpa [raceStep, hr, hv] using sub_nonneg.2 (not_lt.1 hv)
  | write2 =>
    cases hr : s.r2 with
    | none => simpa [raceStep, hr] using h
    | some v =>
      by_cases hv : v < q2
      · simpa [raceStep, hr, hv] using h
      · simpa [raceStep, hr, hv] using sub_nonneg.2 (not_lt.1 hv)

/-- C5 (amended): two interleaved purchases never drive the stock
negative — every write stores the non-negative difference of the value
its request read and its quantity — but the check-then-decrement is only
checked in application memory, not serialized per record: interleavings
exist in which both purchases succeed while only one decrement survives
(see the counterexample). Stock non-negativity holds for every schedule
from a non-negative initial stock. -/
theorem purchase_race_stock_nonneg (q1 q2 init : ℚ) (sched : List PEvent)
    (h : 0 ≤ init) : 0 ≤ (runRace q1 q2 init sched).stock := by
  suffices h2 : ∀ s : RaceState, 0 ≤ s.stock →
      0 ≤ (sched.foldl (raceStep q1 q2) s).stock by
    simpa [runRace] using h2 ⟨init, none, none, none, none⟩ h
  induction sched with
  | nil => intro s hs; simpa using hs
  | cons e rest ih =>
    intro s hs
    simpa using ih (raceStep q1 q2 s e) (raceStep_stock_nonneg q1 q2 s e hs)

/-- Witness for the amended C5: the racing schedule from the
counterexample still leaves a non-negative stock. -/
theorem purchase_race_stock_nonneg_witness :
    0 ≤ (runRace 3 4 5 [.read1, .read2, .write1, .write2]).stock :=
  purchase_race_stock_nonneg 3 4 5 _ (by norm_num)

/-- Counterexample to C6: an empty-string priceMax is not treated as
absent — Number coercion sends the empty string to 0, so the query with
only an empty priceMax filters on price at most 0 and drops a sweet
priced 5 instead of returning the unfiltered list. -/
theorem search_empty_price_cex :
    searchRoute [⟨"s1", "Gum", 5, 10, "c1", "u1"⟩] ⟨none, none, none, some ""⟩ =
      .okSweetList [] ∧
    jsNumber "" = some 0 ∧
    Resp.okSweetList [] ≠ Resp.okSweetList [⟨"s1", "Gum", 5, 10, "c1", "u1"⟩] := by
  decide

theorem matchesSearch_true_iff (p : SearchParams) (s : Sweet) :
    matchesSearch p s = true ↔
      ((∀ n, p.name = some n → containsCI s.name n = true) ∧
       (∀ c, p.categoryId = some c → s.categoryId = c) ∧
       (∀ a, p.priceMin = some a → a ≤ s.price) ∧
       (∀ b, p.priceMax = some b → s.price ≤ b)) := by
  cases hn : p.name <;> cases hc : p.categoryId <;>
    cases ha : p.priceMin <;> cases hb : p.priceMax <;>
      simp [matchesSearch, hn, hc, ha, hb, and_assoc]

theorem parseSearchQuery_empty_strings (pm px : Option String) :
    parseSearchQuery ⟨some "", some "", pm, px⟩ =
      parseSearchQuery ⟨none, none, pm, px⟩ := by
  have hn : normStr (some "") = none := rfl
  have hn2 : normStr none = none := rfl
  unfold parseSearchQuery
  cases h1 : parsePrice "priceMin" pm with
  | error f => rfl
  | ok pmin =>
    cases h2 : parsePrice "priceMax" px with
    | error f => rfl
    | ok pmax =>
      cases pmin with
      | none => cases pmax <;> simp [hn, hn2]
      | some a =>
        cases pmax with
        | none => simp [hn, hn2]
        | some b => by_cases hlt : b < a <;> simp [hlt, hn, hn2]

/-- C6 (amended): when the query parses, the search result is exactly the
sweets satisfying the conjunction of the supplied filters
(case-insensitive name substring, exact categoryId, inclusive price
bounds); no filters returns the unfiltered list; empty-string name and
categoryId values are treated as absent, but an empty-string priceMin or
priceMax is coerced by Number to 0 rather than dropped; when both bounds
are present with priceMin greater than priceMax the request fails with
the 400 validation response attached to the priceMin field, regardless
of the other filters. -/
theorem search_contract (db : List Sweet) (r : SearchRaw) :
    (∀ p, parseSearchQuery r = .ok p →
      searchRoute db r = .okSweetList (db.filter (fun s => matchesSearch p s)) ∧
      ∀ s, s ∈ db.filter (fun s => matchesSearch p s) ↔
        (s ∈ db ∧
          (∀ n, p.name = some n → containsCI s.name n = true) ∧
          (∀ c, p.categoryId = some c → s.categoryId = c) ∧
          (∀ a, p.priceMin = some a → a ≤ s.price) ∧
          (∀ b, p.priceMax = some b → s.price ≤ b))) ∧
    (parseSearchQuery ⟨none, none, none, none⟩ = .ok ⟨none, none, none, none⟩ ∧
      searchRoute db ⟨none, none, none, none⟩ = .okSweetList db) ∧
    (parseSearchQuery ⟨some "", some "", r.priceMin, r.priceMax⟩ =
      parseSearchQuery ⟨none, none, r.priceMin, r.priceMax⟩) ∧
    (jsNumber "" = some 0) ∧
    (∀ smin smax a b, jsNumber smin = some a → jsNumber smax = some b →
      0 ≤ a → 0 ≤ b → b < a →
      searchRoute db ⟨r.name, r.categoryId, some smin, some smax⟩ =
        .searchInvalid "priceMin" ∧
      Resp.status (.searchInvalid "priceMin") = 400) := by
  refine ⟨fun p hp => ⟨by simp [searchRoute, hp], fun s => ?_⟩,
    ⟨rfl, ?_⟩, parseSearchQuery_empty_strings r.priceMin r.priceMax, rfl,
    fun smin smax a b hmin hmax hna hnb hba => ?_⟩
  · rw [List.mem_filter, matchesSearch_true_iff]
  · have hall : db.filter (fun s => matchesSearch ⟨none, none, none, none⟩ s) = db :=
      List.filter_eq_self.2 (fun s _ => by simp [matchesSearch])
    have hp0 : parseSearchQuery ⟨none, none, none, none⟩ =
        .ok ⟨none, none, none, none⟩ := rfl
    simp [searchRoute, hp0, hall]
  · have h1 : parsePrice "priceMin" (some smin) = .ok (some a) := by
      simp [parsePrice, hmin, not_lt.2 hna]
    have h2 : parsePrice "priceMax" (some smax) = .ok (some b) := by
      simp [parsePrice, hmax, not_lt.2 hnb]
    have h3 : parseSearchQuery ⟨r.name, r.categoryId, some smin, some smax⟩ =
        .error "priceMin" := by
      unfold parseSearchQuery
      simp [h1, h2, hba]
    exact ⟨by simp [searchRoute, h3], rfl⟩

/-- Witness for the amended C6: a name-only search matching the single
stored sweet case-insensitively. -/
theorem search_contract_witness :
    searchRoute [⟨"s1", "Gum", 5, 10, "c1", "u1"⟩] ⟨some "gu", none, none, none⟩ =
      .okSweetList [⟨"s1", "Gum", 5, 10, "c1", "u1"⟩] := by
  have h := ((search_contract [⟨"s1", "Gum", 5, 10, "c1", "u1"⟩]
      ⟨some "gu", none, none, none⟩).1 ⟨some "gu", none, none, none⟩ (by decide)).1
  rw [h]
  decide

/-- C7: category creation by an authenticated admin with a non-empty
name fails with 409 and creates nothing when some existing category
name matches case-insensitively, and otherwise creates and returns a
category with that name with 201. -/
theorem create_category_contract (actor : User) (cats : List Category)
    (newId name : String) (description : Option String)
    (hadmin : actor.role = Role.ADMIN) (hname : name ≠ "") :
    ((∃ c ∈ cats, lowerStr c.name = lowerStr name) →
      createCategoryRoute actor cats newId name description = (.conflict, cats) ∧
      Resp.status .conflict = 409) ∧
    ((∀ c ∈ cats, lowerStr c.name ≠ lowerStr name) →
      createCategoryRoute actor cats newId name description =
        (.okCreatedCategory ⟨newId, name, description⟩,
         cats ++ [⟨newId, name, description⟩]) ∧
      (⟨newId, name, description⟩ : Category) ∈
        (createCategoryRoute actor cats newId name description).2 ∧
      Resp.status (.okCreatedCategory ⟨newId, name, description⟩) = 201) := by
  constructor
  · rintro ⟨c, hc, he⟩
    cases hf : cats.find? (fun d => lowerStr d.name == lowerStr name) with
    | none =>
      exact absurd he (by simpa using List.find?_eq_none.1 hf c hc)
    | some d =>
      exact ⟨by simp [createCategoryRoute, hadmin, hname, hf], rfl⟩
  · intro hall
    have hf : cats.find? (fun d => lowerStr d.name == lowerStr name) = none :=
      List.find?_eq_none.2 (fun c hc => by simpa using hall c hc)
    have heq : createCategoryRoute actor cats newId name description =
        (.okCreatedCategory ⟨newId, name, description⟩,
         cats ++ [⟨newId, name, description⟩]) := by
      simp [createCategoryRoute, hadmin, hname, hf]
    exact ⟨heq, by rw [heq]; simp, rfl⟩

/-- Witness for C7: creating the name chocolates next to an existing
Chocolates yields the conflict with the store unchanged. -/
theorem create_category_contract_witness :
    createCategoryRoute ⟨"u1", "a@b.co", "A", "h", Role.ADMIN⟩
        [⟨"c1", "Chocolates", none⟩] "c2" "chocolates" none =
      (.conflict, [⟨"c1", "Chocolates", none⟩]) :=
  ((create_category_contract ⟨"u1", "a@b.co", "A", "h", Role.ADMIN⟩
      [⟨"c1", "Chocolates", none⟩] "c2" "chocolates" none rfl (by decide)).1
    ⟨⟨"c1", "Chocolates", none⟩, by decide, by decide⟩).1

/-- C9: the register route has no authentication gate, and a valid body
that sets role to ADMIN and carries an unused email creates a user whose
persisted role is ADMIN and answers 201 with the auth-token cookie set —
administrator privilege is obtainable at registration. -/
theorem register_admin_escalation (hash : String → String) (newId : String)
    (users : List User) (b : RegisterBody)
    (hv : validRegister b = true) (hrole : b.role = some Role.ADMIN)
    (hfresh : ∀ u ∈ users, u.email ≠ b.email) :
    registerRoute hash newId users b =
      (.created newId b.email b.name Role.ADMIN true,
       users ++ [⟨newId, b.email, b.name, hash b.password, Role.ADMIN⟩]) ∧
    (∃ u ∈ (registerRoute hash newId users b).2,
      u.role = Role.ADMIN ∧ u.email = b.email) ∧
    RegisterOutcome.status (.created newId b.email b.name Role.ADMIN true) = 201 := by
  have hf : users.find? (fun u => u.email == b.email) = none :=
    List.find?_eq_none.2 (fun u hu => by simpa using hfresh u hu)
  have heq : registerRoute hash newId users b =
      (.created newId b.email b.name Role.ADMIN true,
       users ++ [⟨newId, b.email, b.name, hash b.password, Role.ADMIN⟩]) := by
    simp [registerRoute, hv, hf, hrole]
  refine ⟨heq, ?_, rfl⟩
  rw [heq]
  exact ⟨⟨newId, b.email, b.name, hash b.password, Role.ADMIN⟩, by simp, rfl, rfl⟩

/-- Witness for C9: an anonymous caller registering with role ADMIN. -/
theorem register_admin_escalation_witness :
    registerRoute (fun s => s) "u9" []
        ⟨"a@b.co", "A", "password1", some Role.ADMIN⟩ =
      (.created "u9" "a@b.co" "A" Role.ADMIN true,
       [⟨"u9", "a@b.co", "A", "password1", Role.ADMIN⟩]) :=
  (register_admin_escalation (fun s => s) "u9" []
    ⟨"a@b.co", "A", "password1", some Role.ADMIN⟩
    (by decide) rfl (by decide)).1

/-- C10: every element of the sweets list response embeds the full
related user record — the stored password field included — and the full
category record: the handler includes the relations and strips no
field (unlike the register handler, which removes the password before
responding). -/
theorem list_sweets_includes_password (users : List User) (cats : List Category)
    (sweets : List Sweet) (s : Sweet) (u : User)
    (hs : s ∈ sweets) (hu : users.find? (fun v => v.id == s.userId) = some u) :
    ∃ item ∈ listSweetsRoute users cats sweets,
      item.sweet = s ∧ item.user = some u ∧
      Option.map User.password item.user = some u.password := by
  refine ⟨⟨s, cats.find? (fun c => c.id == s.categoryId),
    users.find? (fun v => v.id == s.userId)⟩,
    List.mem_map_of_mem _ hs, rfl, hu, ?_⟩
  simp [hu]

/-- Witness for C10: a store with one user and one sweet owned by that
user; the listed item embeds the stored hashed password. -/
theorem list_sweets_includes_password_witness :
    ∃ item ∈ listSweetsRoute [⟨"u1", "a@b.co", "A", "hashedpw", Role.USER⟩] []
        [⟨"s1", "Gum", 5, 10, "c1", "u1"⟩],
      item.sweet = ⟨"s1", "Gum", 5, 10, "c1", "u1"⟩ ∧
      item.user = some ⟨"u1", "a@b.co", "A", "hashedpw", Role.USER⟩ ∧
      Option.map User.password item.user = some "hashedpw" :=
  list_sweets_includes_password _ _ _ _ _ (by decide) (by decide)

end Misthan
